import Mathlib

/-!
Verification development for the r2_video_hosting ingestion-and-transcode
pipeline.  The Rust source is shallowly embedded: pure functions become Lean
functions, the handler state machines become explicit state passing, and
external subprocesses become oracles supplied as function arguments.  Machine
integers are modelled as `Nat` (all quantities involved are small and
non-negative; no arithmetic here approaches `u32` overflow), and the few `f64`
computations are modelled by exact rationals, which agree with the `f64`
evaluation at every input the program ever feeds them (all rounding steps are
far from ties; this is noted at each definition concerned).
-/

namespace R2V

/-! ## Data model (src/types.rs) -/

/-- Embeds `VideoVariant` from src/types.rs: a resolution/bitrate rendition.
`bitrate` is in kbps. -/
structure VideoVariant where
  label : String
  height : Nat
  bitrate : Nat
  deriving Repr, DecidableEq

/-- Embeds `VideoVariant::calculate_bitrate` (src/types.rs:52-72).
The Rust code computes in `f64`:
`width = (height*16/9).round()`, `bpp` by a height range match,
`bitrate_kbps = (width*height*24*bpp/1000).round()`, clamped to `[500,20000]`.
`f64` is modelled by exact rationals; at every ladder height (480, 720, 1080,
1440, 2160) each `round` operates far from a tie, so the rational and `f64`
evaluations coincide. -/
def calculateBitrate (height : Nat) : Nat :=
  let width : Nat := (round ((height : ℚ) * 16 / 9)).toNat
  let bpp : ℚ :=
    if height ≤ 480 then 12/100
    else if height ≤ 720 then 10/100
    else if height ≤ 1080 then 8/100
    else if height ≤ 1440 then 7/100
    else 6/100
  let bitrateBps : ℚ := (width : ℚ) * (height : ℚ) * 24 * bpp
  let bitrateKbps : Nat := (round (bitrateBps / 1000)).toNat
  min 20000 (max 500 bitrateKbps)

/-- Embeds `VideoVariant::new` (src/types.rs:41-47). -/
def VideoVariant.new (label : String) (height : Nat) : VideoVariant :=
  { label := label, height := height, bitrate := calculateBitrate height }

/-- Embeds `VideoVariant::max_bitrate` (src/types.rs:82-84): `bitrate * 3 / 2`
in `u32` arithmetic (integer division). -/
def VideoVariant.maxBitrate (v : VideoVariant) : Nat :=
  v.bitrate * 3 / 2

/-- Embeds `VideoVariant::bufsize` (src/types.rs:88-90): `bitrate * 2`. -/
def VideoVariant.bufsize (v : VideoVariant) : Nat :=
  v.bitrate * 2

/-- Embeds `VideoVariant::bandwidth` (src/types.rs:94-96): `bitrate * 1000`. -/
def VideoVariant.bandwidth (v : VideoVariant) : Nat :=
  v.bitrate * 1000

/-- Embeds `AudioStreamInfo` from src/types.rs (the fields the orchestrator
and manifest builder read). -/
structure AudioStreamInfo where
  codecName : String
  language : Option String
  title : Option String
  channels : Option Nat
  isDefault : Bool
  deriving Repr, DecidableEq

/-! ## Variant ladder (src/video.rs `get_variants_for_height`) -/

/-- Embeds the `all_variants` list built inside `get_variants_for_height`
(src/video.rs:509-515). -/
def allVariants : List VideoVariant :=
  [VideoVariant.new "480p" 480,
   VideoVariant.new "720p" 720,
   VideoVariant.new "1080p" 1080,
   VideoVariant.new "1440p" 1440,
   VideoVariant.new "2160p" 2160]

/-- Embeds `get_variants_for_height` (src/video.rs:508-522): keep the variants
whose height is at or below the source height. -/
def getVariantsForHeight (originalHeight : Nat) : List VideoVariant :=
  allVariants.filter (fun v => v.height ≤ originalHeight)

/-! ## Encoder families and hardware-failure detection (src/video.rs) -/

/-- Occurrence of `pat` as a contiguous sublist of a character list. -/
def occursIn (pat : List Char) : List Char → Bool
  | [] => pat.isPrefixOf ([] : List Char)
  | c :: rest => pat.isPrefixOf (c :: rest) || occursIn pat rest

/-- Substring containment, the model of Rust `str::contains`. -/
def containsSub (s pat : String) : Bool :=
  occursIn pat.toList s.toList

/-- Embeds `EncoderType` (src/video.rs:524-530). -/
inductive EncoderType where
  | nvenc
  | vaapi
  | qsv
  | cpu
  deriving Repr, DecidableEq

/-- Embeds `EncoderType::from_string` (src/video.rs:533-543). -/
def EncoderType.fromString (s : String) : EncoderType :=
  if containsSub s "nvenc" then .nvenc
  else if containsSub s "vaapi" then .vaapi
  else if containsSub s "qsv" then .qsv
  else .cpu

/-- Embeds the `hw_error_patterns` array of `is_hardware_encoder_error`
(src/video.rs:558-580). -/
def hwErrorPatterns : List String :=
  ["Hardware is lacking required capabilities",
   "Provided device doesn\x27t support required NVENC features",
   "NVENC features",
   "hwaccel initialisation returned error",
   "Failed setup for format cuda",
   "Failed setup for format vaapi",
   "Failed setup for format qsv",
   "Impossible to convert between the formats",
   "Cannot open the hw device",
   "Could not open encoder before EOF",
   "Error initializing the hwcontext",
   "No capable adapters found",
   "Device creation failed",
   "No VAAPI support",
   "DRM setup failed",
   "Error while opening encoder",
   "maybe incorrect parameters",
   "Error sending frames to consumers",
   "Function not implemented",
   "Incompatible pixel format",
   "does not support the pixel format"]

/-- Embeds `is_hardware_encoder_error` (src/video.rs:557-585): the stderr text
matches when any known hardware-failure pattern occurs in it. -/
def isHardwareEncoderError (stderr : String) : Bool :=
  hwErrorPatterns.any (fun pattern => containsSub stderr pattern)

/-! ## One variant encode task with hardware fallback (src/video.rs:655-935) -/

/-- Outcome of one external `ffmpeg` invocation: its exit success flag and its
captured stderr text. -/
structure FfmpegOutcome where
  success : Bool
  stderr : String
  deriving Repr, DecidableEq

/-- The progress detail text inserted when falling back
(src/video.rs:887-890). -/
def fallbackDetail (v : VideoVariant) : String :=
  "Encoding variant: " ++ v.label ++ " (" ++ toString v.height ++
    "p) - using CPU fallback"

/-- The error produced by a non-recoverable encode failure
(src/video.rs:907-911); the interpolated process exit status is not modelled,
only the per-variant message shape. -/
def encodeFailMsg (v : VideoVariant) : String :=
  "ffmpeg exited with non-zero status for variant " ++ v.label

/-- What one variant encode task did: the encoder of each external invocation
in order, whether a partial output directory was discarded before a retry
(src/video.rs:706-710), the fallback progress detail texts recorded
(src/video.rs:881-900), and the task's result. -/
structure VariantEncodeResult where
  invocations : List EncoderType
  discardedPartialOutput : Bool
  fallbackDetails : List String
  result : Except String Unit
  deriving Repr

/-- Embeds the encode/retry loop of one variant task (src/video.rs:701-912).
`run e` is the outcome of invoking the external encoder configured for
encoder `e` on this variant.  The source loop is unrolled: after a fallback
sets `current_encoder = Cpu`, the fallback guard
`current_encoder != Cpu && is_hardware_encoder_error(..)` can never hold
again, so at most two iterations are reachable.  On the fallback path the
partial output directory is removed and recreated at the top of the retry
iteration, and the `- using CPU fallback` progress detail is inserted. -/
def variantTask (v : VideoVariant) (encoderType : EncoderType)
    (run : EncoderType → FfmpegOutcome) : VariantEncodeResult :=
  let o1 := run encoderType
  if o1.success then
    { invocations := [encoderType], discardedPartialOutput := false,
      fallbackDetails := [], result := .ok () }
  else if encoderType ≠ EncoderType.cpu ∧ isHardwareEncoderError o1.stderr then
    let o2 := run EncoderType.cpu
    if o2.success then
      { invocations := [encoderType, EncoderType.cpu],
        discardedPartialOutput := true, fallbackDetails := [fallbackDetail v],
        result := .ok () }
    else
      { invocations := [encoderType, EncoderType.cpu],
        discardedPartialOutput := true, fallbackDetails := [fallbackDetail v],
        result := .error (encodeFailMsg v) }
  else
    { invocations := [encoderType], discardedPartialOutput := false,
      fallbackDetails := [], result := .error (encodeFailMsg v) }

/-! ## Audio, thumbnail and sprite tasks (src/video.rs:940-1142) -/

/-- Embeds the audio-track label of src/video.rs:955-959 (and identically
src/video.rs:1164-1168): the language code plus track index, or
`track_<idx>` when the language is undefined. -/
def audioLabel (language : Option String) (idx : Nat) : String :=
  match language with
  | some lang => lang ++ "_" ++ toString idx
  | none => "track_" ++ toString idx

/-- Embeds one audio encode task (src/video.rs:950-1054).  `run` is `none`
when spawning the encoder fails (`context("failed to run ffmpeg for audio")`),
otherwise the invocation's outcome; a non-zero exit is fatal for the task. -/
def audioTask (audioIdx : Nat) (run : Option FfmpegOutcome) :
    Except String Unit :=
  match run with
  | none => .error "failed to run ffmpeg for audio"
  | some o =>
    if o.success then .ok ()
    else .error ("ffmpeg audio encoding failed for track " ++
      toString audioIdx ++ ": " ++ o.stderr)

/-- Embeds the thumbnail task (src/video.rs:1062-1095).  A spawn failure
(`context("failed to generate thumbnail")`) is an error; a launched process
that exits non-zero is only logged (`error!`, src/video.rs:1089-1092) and the
task still returns `Ok(())`. -/
def thumbnailTask (run : Option FfmpegOutcome) : Except String Unit :=
  match run with
  | none => .error "failed to generate thumbnail"
  | some _ => .ok ()

/-- Embeds the sprite-sheet task (src/video.rs:1102-1140), with the same
failure handling as the thumbnail task: only a spawn failure is an error. -/
def spriteTask (run : Option FfmpegOutcome) : Except String Unit :=
  match run with
  | none => .error "failed to generate thumbnail sprite"
  | some _ => .ok ()

/-! ## Master playlist (src/video.rs:1154-1226) -/

/-- ASCII lowercasing of one character; models Rust `to_lowercase` on the
ASCII language codes it is applied to. -/
def asciiLower (c : Char) : Char :=
  if 'A' ≤ c ∧ c ≤ 'Z' then Char.ofNat (c.toNat + 32) else c

/-- ASCII lowercasing of a string. -/
def lowerStr (s : String) : String :=
  String.mk (s.toList.map asciiLower)

/-- ASCII uppercasing of one character. -/
def asciiUpper (c : Char) : Char :=
  if 'a' ≤ c ∧ c ≤ 'z' then Char.ofNat (c.toNat - 32) else c

/-- ASCII uppercasing of a string; models Rust `to_uppercase` on language
codes. -/
def upperStr (s : String) : String :=
  String.mk (s.toList.map asciiUpper)

/-- Embeds `get_language_display_name` (src/video.rs:589-609). -/
def getLanguageDisplayName (langCode : String) : String :=
  match lowerStr langCode with
  | "eng" | "en" => "English"
  | "jpn" | "ja" => "Japanese"
  | "spa" | "es" => "Spanish"
  | "fra" | "fr" => "French"
  | "deu" | "de" => "German"
  | "ita" | "it" => "Italian"
  | "por" | "pt" => "Portuguese"
  | "rus" | "ru" => "Russian"
  | "kor" | "ko" => "Korean"
  | "zho" | "zh" | "chi" => "Chinese"
  | "ara" | "ar" => "Arabic"
  | "hin" | "hi" => "Hindi"
  | "tha" | "th" => "Thai"
  | "vie" | "vi" => "Vietnamese"
  | "ind" | "id" => "Indonesian"
  | "und" => "Unknown"
  | other => upperStr other

/-- Embeds the display name chosen for one audio media entry
(src/video.rs:1169-1180): the track title, or for an undefined language a
synthesized `Audio Track N (codec)`, otherwise the language display name. -/
def mediaName (audio : AudioStreamInfo) (idx : Nat) : String :=
  match audio.title with
  | some t => t
  | none =>
    let language := audio.language.getD "und"
    if language = "und" then
      "Audio Track " ++ toString (idx + 1) ++ " (" ++ audio.codecName ++ ")"
    else getLanguageDisplayName language

/-- One line of the generated master playlist.  The source builds one string;
each constructor is one newline-terminated piece pushed onto
`master_content`, so the playlist string is these lines joined by
newlines. -/
inductive PlaylistLine where
  | header (text : String)
  | blank
  | media (language name isDefault autoselect label : String)
  | streamInf (bandwidth resWidth resHeight : Nat) (audioGroup : Bool)
  | variantPath (label : String)
  deriving Repr, DecidableEq

/-- Renders one playlist line exactly as the `format!` calls of
src/video.rs:1192-1221 do. -/
def PlaylistLine.render : PlaylistLine → String
  | .header t => t
  | .blank => ""
  | .media language name d a label =>
      "#EXT-X-MEDIA:TYPE=AUDIO,GROUP-ID=\"audio\",LANGUAGE=\"" ++ language ++
        "\",NAME=\"" ++ name ++ "\",DEFAULT=" ++ d ++ ",AUTOSELECT=" ++ a ++
        ",URI=\"audio_" ++ label ++ "/index.m3u8\""
  | .streamInf bw w h grp =>
      "#EXT-X-STREAM-INF:BANDWIDTH=" ++ toString bw ++ ",RESOLUTION=" ++
        toString w ++ "x" ++ toString h ++
        (if grp then ",AUDIO=\"audio\"" else "")
  | .variantPath label => label ++ "/index.m3u8"

/-- Embeds one `EXT-X-MEDIA` entry (src/video.rs:1162-1199) for the audio
stream at position `idx`. -/
def mediaEntry (audio : AudioStreamInfo) (idx : Nat) : PlaylistLine :=
  let language := audio.language.getD "und"
  let name := mediaName audio idx
  let isDefault := if audio.isDefault || idx = 0 then "YES" else "NO"
  let autoselect := if audio.isDefault || idx = 0 then "YES" else "NO"
  .media language name isDefault autoselect (audioLabel audio.language idx)

/-- Embeds the master-playlist construction (src/video.rs:1155-1222) as the
list of lines appended to `master_content`: the fixed header, one media entry
per audio stream followed by a blank line when any audio exists, then per
variant one stream-variant entry (bandwidth, a 16:9 resolution from the
variant height, and the audio group reference when audio exists) and the
variant's sub-playlist path.  The `f32` resolution computation
`((height as f32) * 16.0 / 9.0) as u32` is modelled by exact natural
division, which agrees with the `f32` evaluation at every ladder height. -/
def buildMasterPlaylist (variants : List VideoVariant)
    (audioStreams : List AudioStreamInfo) : List PlaylistLine :=
  let headerLines : List PlaylistLine :=
    [.header "#EXTM3U", .header "#EXT-X-VERSION:3", .blank]
  let mediaLines : List PlaylistLine :=
    if audioStreams.isEmpty then []
    else (audioStreams.enum.map (fun p => mediaEntry p.2 p.1)) ++ [.blank]
  let variantLines : List PlaylistLine :=
    variants.flatMap (fun v =>
      [.streamInf v.bandwidth (v.height * 16 / 9) v.height
          (!audioStreams.isEmpty),
       .variantPath v.label])
  headerLines ++ mediaLines ++ variantLines

/-- Recognizes an `EXT-X-MEDIA` audio entry. -/
def PlaylistLine.isMedia : PlaylistLine → Bool
  | .media .. => true
  | _ => false

/-- Recognizes an `EXT-X-STREAM-INF` entry. -/
def PlaylistLine.isStreamInf : PlaylistLine → Bool
  | .streamInf .. => true
  | _ => false

/-! ## The transcode orchestrator join (src/video.rs:611-1228) -/

/-- The oracles an `encode_to_hls` job consumes: the external-encoder outcome
of each (variant index, encoder) invocation, the audio encoder outcome per
audio track (`none` models a spawn failure), and the thumbnail/sprite
invocations. -/
structure JobOracles where
  variantRun : Nat → EncoderType → FfmpegOutcome
  audioRun : Nat → Option FfmpegOutcome
  thumbRun : Option FfmpegOutcome
  spriteRun : Option FfmpegOutcome

/-- First error among a list of task results; models
`try_join_all(..).await?` (src/video.rs:1145-1152): the collected results
surface the first error, in task order (real time-interleaving is abstracted
to list order). -/
def firstErr {α : Type} : List (Except String α) → Option String
  | [] => none
  | .ok _ :: rest => firstErr rest
  | .error e :: _ => some e

/-- The results of the per-variant encode tasks spawned at
src/video.rs:646-938, in spawn order. -/
def variantResults (originalHeight : Nat) (encoder : String)
    (oracles : JobOracles) : List (Except String Unit) :=
  (getVariantsForHeight originalHeight).enum.map
    (fun p =>
      (variantTask p.2 (EncoderType.fromString encoder)
        (oracles.variantRun p.1)).result)

/-- The results of the per-audio-track encode tasks spawned at
src/video.rs:942-1057, in spawn order. -/
def audioResults (audioStreams : List AudioStreamInfo) (oracles : JobOracles) :
    List (Except String Unit) :=
  audioStreams.enum.map (fun p => audioTask p.1 (oracles.audioRun p.1))

/-- All the task results `encode_to_hls` joins (src/video.rs:1144-1152): the
variant tasks, then the audio tasks, then the thumbnail and sprite tasks, in
the order they are pushed onto `encode_tasks`. -/
def jobResults (originalHeight : Nat) (encoder : String)
    (audioStreams : List AudioStreamInfo) (oracles : JobOracles) :
    List (Except String Unit) :=
  variantResults originalHeight encoder oracles ++
    audioResults audioStreams oracles ++
    [thumbnailTask oracles.thumbRun, spriteTask oracles.spriteRun]

/-- Embeds `encode_to_hls` (src/video.rs:611-1228) given the probed source
height: derive the ladder and fail with the no-suitable-variant error when it
is empty (src/video.rs:625-629); run one task per variant (with hardware
fallback) and per audio track plus the thumbnail and sprite tasks; join them
all, surfacing the first task error; only when every task succeeded, build
and write the master playlist (the returned value). -/
def encodeToHls (originalHeight : Nat) (encoder : String)
    (audioStreams : List AudioStreamInfo) (oracles : JobOracles) :
    Except String (List PlaylistLine) :=
  let variants := getVariantsForHeight originalHeight
  if variants.isEmpty then
    .error ("No suitable variants for video height " ++ toString originalHeight)
  else
    match firstErr (jobResults originalHeight encoder audioStreams oracles) with
    | some e => .error e
    | none => .ok (buildMasterPlaylist variants audioStreams)

/-! ## Chunked upload sessions (src/types.rs:188-197, src/handlers/upload.rs) -/

/-- Embeds `ChunkedUpload` (src/types.rs:188-195). -/
structure ChunkedUpload where
  fileName : String
  totalChunks : Nat
  receivedChunks : List Bool
  tempDir : String
  lastActivity : Nat
  deriving Repr, DecidableEq

/-- The in-memory `chunked_uploads` map, modelled as an association list with
at most one entry per upload id. -/
abbrev UploadsMap := List (String × ChunkedUpload)

/-- Lookup in the uploads map. -/
def lookupUpload (m : UploadsMap) (id : String) : Option ChunkedUpload :=
  (m.find? (fun p => p.1 = id)).map Prod.snd

/-- Removal from the uploads map (`HashMap::remove`). -/
def removeUpload (m : UploadsMap) (id : String) : UploadsMap :=
  m.filter (fun p => p.1 ≠ id)

/-- Insertion into the uploads map (`HashMap::insert`). -/
def insertUpload (m : UploadsMap) (id : String) (u : ChunkedUpload) :
    UploadsMap :=
  (id, u) :: removeUpload m id

/-- How a request handler run ends: an HTTP response value, an HTTP error
`(status, message)`, or a Rust panic aborting the handler task (which never
produces an HTTP error response). -/
inductive HandlerOutcome (α : Type) where
  | ok (val : α)
  | err (status : Nat) (msg : String)
  | crashed (msg : String)
  deriving Repr

/-- Embeds `ChunkUploadResponse` (src/types.rs:199-204). -/
structure ChunkUploadResponse where
  uploadId : String
  chunkIndex : Nat
  received : Bool
  deriving Repr, DecidableEq

/-- What one `upload_chunk` request did to the session map and the disk. -/
structure UploadChunkResult where
  uploads : UploadsMap
  writtenChunkFile : Option (String × Nat)
  outcome : HandlerOutcome ChunkUploadResponse

/-- Embeds the session-mutating core of `upload_chunk`
(src/handlers/upload.rs:546-638) after multipart parsing has produced the
chunk index, total chunk count and filename.  A missing session is created
with an all-false bitmap of length `totalChunks` and temp dir
`chunked-<id>` (src/handlers/upload.rs:549-583); the chunk file
`chunk_<index>` is then written into the temp dir unconditionally
(src/handlers/upload.rs:588-591); then the bitmap slot `chunkIndex` is
assigned (src/handlers/upload.rs:593-599).  The source performs no bounds
check on `chunk_index`: Rust slice indexing panics when
`chunk_index >= received_chunks.len()`, modelled by `crashed` (the panic
message is abbreviated). -/
def uploadChunk (uploads : UploadsMap) (id fileName : String)
    (chunkIndex totalChunks now : Nat) : UploadChunkResult :=
  let uploads1 :=
    match lookupUpload uploads id with
    | some _ => uploads
    | none => insertUpload uploads id
        { fileName := fileName, totalChunks := totalChunks,
          receivedChunks := List.replicate totalChunks false,
          tempDir := "chunked-" ++ id, lastActivity := now }
  match lookupUpload uploads1 id with
  | none =>
      { uploads := uploads1, writtenChunkFile := none,
        outcome := .crashed "called Option::unwrap on a None value" }
  | some u =>
      let written := some (u.tempDir, chunkIndex)
      if chunkIndex < u.receivedChunks.length then
        { uploads := insertUpload uploads1 id
            { u with receivedChunks := u.receivedChunks.set chunkIndex true,
                     lastActivity := now },
          writtenChunkFile := written,
          outcome := .ok
            { uploadId := id, chunkIndex := chunkIndex, received := true } }
      else
        { uploads := uploads1, writtenChunkFile := written,
          outcome := .crashed "index out of bounds" }

/-- Reads the per-session chunk files `chunk_0 .. chunk_(n-1)` in index order
and concatenates their contents, as the loop of
src/handlers/upload.rs:696-712 does; `none` models a failing
`File::open`/read on a missing chunk file. -/
def readChunksInOrder (file : Nat → Option (List Nat)) : Nat → Option (List Nat)
  | 0 => some []
  | n + 1 =>
    match readChunksInOrder file n, file n with
    | some acc, some c => some (acc ++ c)
    | _, _ => none

/-- What one `finalize_chunked_upload` request did: the session map
afterwards, the outcome (HTTP error or the assembled file's bytes), and
whether the session temp directory was removed. -/
structure FinalizeResult where
  uploads : UploadsMap
  outcome : Except (Nat × String) (List Nat)
  tempDirRemoved : Bool

/-- Embeds `finalize_chunked_upload` (src/handlers/upload.rs:642-714) up to
the assembled file.  The session is removed from the map first
(src/handlers/upload.rs:660-668; an unknown id yields 404); only then is the
bitmap checked, an unset bit yielding the 400 incomplete-upload error
(src/handlers/upload.rs:670-675) with the session already removed and its
temp dir left on disk; otherwise the chunk files are concatenated in index
order (src/handlers/upload.rs:696-712, a missing file yielding a 500) and
the temp dir is removed (src/handlers/upload.rs:714). -/
def finalizeChunkedUpload (uploads : UploadsMap)
    (chunkFile : String → Nat → Option (List Nat)) (id : String) :
    FinalizeResult :=
  match lookupUpload uploads id with
  | none =>
      { uploads := uploads,
        outcome := .error (404, "Upload ID not found or already finalized"),
        tempDirRemoved := false }
  | some u =>
      let uploads1 := removeUpload uploads id
      if u.receivedChunks.all (fun r => r) then
        match readChunksInOrder (chunkFile u.tempDir) u.totalChunks with
        | none =>
            { uploads := uploads1, outcome := .error (500, "internal error"),
              tempDirRemoved := false }
        | some bytes =>
            { uploads := uploads1, outcome := .ok bytes,
              tempDirRemoved := true }
      else
        { uploads := uploads1,
          outcome := .error (400, "Not all chunks have been received"),
          tempDirRemoved := false }

/-! ## Progress records (src/types.rs:15-27) and every record the pipeline
writes -/

/-- Embeds `UploadResponse` (src/types.rs:111-115). -/
structure UploadResponse where
  playerUrl : String
  uploadId : String
  deriving Repr, DecidableEq

/-- Embeds `ProgressUpdate` (src/types.rs:15-27). -/
structure ProgressUpdate where
  stage : String
  currentChunk : Nat
  totalChunks : Nat
  percentage : Nat
  details : Option String
  status : String
  result : Option UploadResponse
  error : Option String
  videoName : Option String
  createdAt : Nat
  deriving Repr, DecidableEq

/-- Enumerates every `ProgressUpdate` the program ever inserts into the
progress map, one constructor per construction site in
src/handlers/upload.rs, src/video.rs and src/storage.rs.  Fields that are
data-dependent at a site (names, counts, timestamps, formatted details) are
constructor parameters; literal fields are kept literal.  At the sites whose
percentage is computed through `f32` (the encode and storage progress
updates, all with status `processing`) the percentage is an unconstrained
parameter, a sound over-approximation.  `update_progress`
(src/handlers/upload.rs:58-64) only rewrites `created_at`, so the records
ever readable from the registry are exactly these up to `created_at`. -/
inductive Emitted : ProgressUpdate → Prop where
  | initialUpload (now : Nat) :
      Emitted ⟨"Initializing upload", 0, 1, 0, some "Waiting for file data...",
        "initializing", none, none, none, now⟩
  | uploadingToServer (totalBytes : Nat) :
      Emitted ⟨"Uploading to server", 0, 1, 0,
        some ("Uploaded " ++ toString totalBytes ++ " bytes"),
        "processing", none, none, none, 0⟩
  | queuedForProcessing (name : String) :
      Emitted ⟨"Queued for processing", 0, 1, 0, none, "processing",
        none, none, some name, 0⟩
  | encodingStart (numVariants : Nat) (name : String) :
      Emitted ⟨"FFmpeg processing", 0, numVariants, 0,
        some "Starting encoding...", "processing", none, none, some name, 0⟩
  | receivingCreate (total now : Nat) (name : String) :
      Emitted ⟨"Receiving chunks", 0, total, 0,
        some ("Receiving chunk 1 of " ++ toString total), "processing",
        none, none, some name, now⟩
  | chunkReceived (received total : Nat) (name : String) :
      Emitted ⟨"Receiving chunks", received, total, received * 100 / total,
        some ("Received chunk " ++ toString received ++ " of " ++
          toString total), "processing", none, none, some name, 0⟩
  | assembling (total : Nat) (name : String) :
      Emitted ⟨"Assembling file", total, total, 100,
        some "Assembling chunks into final file...", "processing",
        none, none, some name, 0⟩
  | variantProgress (currentChunk total pct : Nat) (detail : String)
      (name : Option String) (createdAt : Nat) :
      Emitted ⟨"FFmpeg processing", currentChunk, total, pct, some detail,
        "processing", none, none, name, createdAt⟩
  | audioProgress (currentChunk total pct : Nat) (label : String)
      (name : Option String) (createdAt : Nat) :
      Emitted ⟨"FFmpeg processing", currentChunk, total, pct,
        some ("Encoding audio track: " ++ label), "processing",
        none, none, name, createdAt⟩
  | uploadStart (name : String) :
      Emitted ⟨"Upload to R2", 0, 1, 0,
        some "Uploading segments to storage...", "processing",
        none, none, some name, 0⟩
  | uploadFileDone (current total pct : Nat) (name : Option String)
      (createdAt : Nat) :
      Emitted ⟨"Upload to R2", current, total, pct,
        some ("Uploaded " ++ toString current ++ "/" ++ toString total ++
          " files"), "processing", none, none, name, createdAt⟩
  | completed (resp : UploadResponse) (name : String) :
      Emitted ⟨"Completed", 1, 1, 100, some "Upload and processing complete",
        "completed", some resp, none, some name, 0⟩
  | failed (e : String) (name : String) :
      Emitted ⟨"Failed", 0, 1, 0, some ("Processing failed: " ++ e),
        "failed", none, some e, some name, 0⟩
  | cancelled (total : Nat) (name : Option String) (createdAt : Nat) :
      Emitted ⟨"Cancelled", 0, total, 0, some "Cancelled by user", "failed",
        none, some "Cancelled by user", name, createdAt⟩

/-! ## Storage uploader (src/storage.rs:201-320) -/

/-- A node of the produced output tree: a file or a directory with its
entries. -/
inductive FsEntry where
  | file (name : String)
  | dir (name : String) (entries : List FsEntry)

/-- Number of occurrences of a character in a string
(Rust `str::matches(c).count()`). -/
def countChar (s : String) (c : Char) : Nat :=
  (s.toList.filter (fun x => x = c)).length

mutual

/-- Embeds `collect_files` (src/storage.rs:211-239) on one directory entry:
a file contributes its destination key `pre ++ name`, and is tracked as the
master playlist when it is named `index.m3u8` at a prefix containing exactly
one `/` (the top level); a directory recurses with `pre ++ name ++ "/"`. -/
def collectEntry (pre : String) : FsEntry → List String × Option String
  | .file name =>
      ([pre ++ name],
       if name = "index.m3u8" ∧ countChar pre '/' = 1
       then some (pre ++ name) else none)
  | .dir name entries => collectEntries (pre ++ name ++ "/") entries

/-- Walks a directory's entries in order, appending the collected keys; a
later master-playlist hit overwrites an earlier one, as the source's
`*master_key = Some(key)` does. -/
def collectEntries (pre : String) : List FsEntry → List String × Option String
  | [] => ([], none)
  | e :: rest =>
      let r1 := collectEntry pre e
      let r2 := collectEntries pre rest
      (r1.1 ++ r2.1, r2.2 <|> r1.2)

end

/-- Well-formedness of a file tree: entry names contain no `/` (as real
directory entries cannot). -/
inductive SlashFree : FsEntry → Prop where
  | file (name : String) (h : countChar name '/' = 0) :
      SlashFree (.file name)
  | dir (name : String) (entries : List FsEntry)
      (h : countChar name '/' = 0) (hs : ∀ e ∈ entries, SlashFree e) :
      SlashFree (.dir name entries)

/-- The settled per-file upload results (src/storage.rs:255-309): one entry
per collected file, each carrying its key on success; every file is read and
put regardless of the other files' outcomes (`buffer_unordered` followed by
`collect` runs all to completion; completion order is abstracted to file
order). -/
def uploadAttempts (hlsDir : List FsEntry) (pre : String)
    (uploadRes : String → Except String Unit) : List (Except String String) :=
  (collectEntries pre hlsDir).1.map
    (fun key => (uploadRes key).map (fun _ => key))

/-- Embeds `upload_hls_to_r2` (src/storage.rs:201-320).  `uploadRes key` is
the outcome of reading and putting one file (src/storage.rs:261-273).  Only
after all uploads settle does `for result in upload_results` surface the
first collected error (src/storage.rs:312-314); on full success the tracked
master-playlist key is required and returned (src/storage.rs:316-319). -/
def uploadHlsToR2 (hlsDir : List FsEntry) (pre : String)
    (uploadRes : String → Except String Unit) : Except String String :=
  match firstErr (uploadAttempts hlsDir pre uploadRes) with
  | some e => .error e
  | none =>
    match (collectEntries pre hlsDir).2 with
    | some k => .ok k
    | none => .error "no master playlist (index.m3u8) generated"

/-! ## Concrete oracle fixtures used to exercise the job model -/

/-- Oracles under which every external invocation succeeds. -/
def allOkOracles : JobOracles :=
  { variantRun := fun _ _ => { success := true, stderr := "" },
    audioRun := fun _ => some { success := true, stderr := "" },
    thumbRun := some { success := true, stderr := "" },
    spriteRun := some { success := true, stderr := "" } }

/-- Oracles under which every encode succeeds but the launched thumbnail and
sprite subprocesses exit non-zero. -/
def thumbExitFailOracles : JobOracles :=
  { variantRun := fun _ _ => { success := true, stderr := "" },
    audioRun := fun _ => some { success := true, stderr := "" },
    thumbRun := some { success := false, stderr := "thumbnail filter error" },
    spriteRun := some { success := false, stderr := "sprite filter error" } }

/-! # Theorems -/

/-! ## Shared lemmas about the orchestrator join -/

/-- The join surfaces no error exactly when every task result is a success. -/
theorem firstErr_eq_none_iff {α : Type} (l : List (Except String α)) :
    firstErr l = none ↔ ∀ r ∈ l, ∃ a, r = Except.ok a := by
  induction l with
  | nil => simp [firstErr]
  | cons hd tl ih =>
    cases hd with
    | ok a => simp [firstErr, ih]
    | error e => simp [firstErr]

/-- Elements of an enumerated map, by index. -/
theorem mem_map_enum {α β : Type} (l : List α) (f : Nat × α → β) (i : Nat)
    (hi : i < l.length) : f (i, l.get ⟨i, hi⟩) ∈ l.enum.map f := by
  refine List.mem_map.mpr ⟨(i, l.get ⟨i, hi⟩), ?_, rfl⟩
  rw [List.mk_mem_enum_iff_getElem?]
  simp [List.getElem?_eq_getElem hi]

/-- `encode_to_hls` succeeds exactly when the ladder is non-empty, every
joined task succeeded, and the value is the built master playlist. -/
theorem encodeToHls_eq_ok_iff (H : Nat) (enc : String)
    (audio : List AudioStreamInfo) (oracles : JobOracles)
    (pl : List PlaylistLine) :
    encodeToHls H enc audio oracles = .ok pl ↔
      ((getVariantsForHeight H).isEmpty = false ∧
       firstErr (jobResults H enc audio oracles) = none ∧
       pl = buildMasterPlaylist (getVariantsForHeight H) audio) := by
  unfold encodeToHls
  cases hE : (getVariantsForHeight H).isEmpty
  · cases hfe : firstErr (jobResults H enc audio oracles) with
    | none => simp [hE, hfe, eq_comm]
    | some e => simp [hE, hfe]
  · simp [hE]

/-- The variant task at ladder position `i` contributes its result to the
joined results. -/
theorem variantResult_mem_jobResults (H : Nat) (enc : String)
    (audio : List AudioStreamInfo) (oracles : JobOracles) (i : Nat)
    (hi : i < (getVariantsForHeight H).length) :
    (variantTask ((getVariantsForHeight H).get ⟨i, hi⟩)
        (EncoderType.fromString enc) (oracles.variantRun i)).result ∈
      jobResults H enc audio oracles := by
  unfold jobResults
  refine List.mem_append_left _ (List.mem_append_left _ ?_)
  exact mem_map_enum (getVariantsForHeight H)
    (fun p => (variantTask p.2 (EncoderType.fromString enc)
      (oracles.variantRun p.1)).result) i hi

/-- The audio task at track position `j` contributes its result to the
joined results. -/
theorem audioResult_mem_jobResults (H : Nat) (enc : String)
    (audio : List AudioStreamInfo) (oracles : JobOracles) (j : Nat)
    (hj : j < audio.length) :
    audioTask j (oracles.audioRun j) ∈ jobResults H enc audio oracles := by
  unfold jobResults
  refine List.mem_append_left _ (List.mem_append_right _ ?_)
  exact mem_map_enum audio (fun p => audioTask p.1 (oracles.audioRun p.1)) j hj

/-- The thumbnail and sprite task results are among the joined results. -/
theorem thumb_sprite_mem_jobResults (H : Nat) (enc : String)
    (audio : List AudioStreamInfo) (oracles : JobOracles) :
    thumbnailTask oracles.thumbRun ∈ jobResults H enc audio oracles ∧
    spriteTask oracles.spriteRun ∈ jobResults H enc audio oracles := by
  unfold jobResults
  constructor
  · exact List.mem_append_right _ (List.mem_cons_self _ _)
  · exact List.mem_append_right _ (List.mem_cons_of_mem _ (List.mem_cons_self _ _))

/-! ## C1: the variant ladder -/

/-- A closed computation of the ladder at height 1080, used to place concrete
variants in the ladder. -/
theorem ladder_1080_eq :
    getVariantsForHeight 1080 =
      [VideoVariant.new "480p" 480, VideoVariant.new "720p" 720,
       VideoVariant.new "1080p" 1080] := rfl

/-- C1 counterexample: at source height 1080 the derived ladder's heights are
480, 720, 1080 in that order, which is not strictly decreasing. -/
theorem ladder_not_strictly_decreasing :
    (getVariantsForHeight 1080).map (fun v => v.height) = [480, 720, 1080] ∧
    ¬ List.Pairwise (fun a b : Nat => a > b)
        ((getVariantsForHeight 1080).map (fun v => v.height)) := by
  refine ⟨by decide, ?_⟩
  rw [show (getVariantsForHeight 1080).map (fun v => v.height) =
    [480, 720, 1080] from by decide]
  decide

/-- C1 (amended): for every source height H the derived ladder is strictly
increasing in height and every member's height is at most H; for H = 1080
the ladder is exactly 480p, 720p, 1080p; for H = 360 the ladder is empty and
`encode_to_hls` fails with the no-suitable-variant error. -/
theorem c1_variant_ladder :
    (∀ H : Nat,
      ((getVariantsForHeight H).map (fun v => v.height)).Pairwise (· < ·) ∧
      ∀ v ∈ getVariantsForHeight H, v.height ≤ H) ∧
    (getVariantsForHeight 1080).map (fun v => v.label) =
      ["480p", "720p", "1080p"] ∧
    getVariantsForHeight 360 = [] ∧
    ∀ (enc : String) (audio : List AudioStreamInfo) (oracles : JobOracles),
      encodeToHls 360 enc audio oracles =
        .error "No suitable variants for video height 360" := by
  refine ⟨fun H => ⟨?_, ?_⟩, by decide, by decide, fun enc audio oracles => ?_⟩
  · refine List.pairwise_map.mpr (List.Pairwise.filter _ ?_)
    decide
  · intro v hv
    have := List.of_mem_filter hv
    exact of_decide_eq_true this
  · have h360 : getVariantsForHeight 360 = [] := by decide
    simp only [encodeToHls, h360, List.isEmpty_nil, if_true]
    rw [show "No suitable variants for video height " ++ toString 360 =
      "No suitable variants for video height 360" from by decide]

/-- C1 witness: the amended ladder theorem applied at source height 1080 and
its 480p member. -/
theorem c1_variant_ladder_witness :
    (VideoVariant.new "480p" 480).height ≤ 1080 := by
  have hmem : VideoVariant.new "480p" 480 ∈ getVariantsForHeight 1080 := by
    rw [ladder_1080_eq]
    exact List.mem_cons_self _ _
  exact (c1_variant_ladder.1 1080).2 _ hmem

/-! ## C8: bitrate derivation -/

/-- A closed evaluation of `calculate_bitrate` at the 480p ladder height. -/
theorem calculateBitrate_480 : calculateBitrate 480 = 1179 := by
  have h : ((853 : ℤ).toNat : ℚ) = (853 : ℚ) := by
    rw [show ((853 : ℤ).toNat) = (853 : ℕ) from rfl]
    norm_num
  norm_num [calculateBitrate, round_eq, h]
  rfl

/-- A closed evaluation of `calculate_bitrate` at the 720p ladder height. -/
theorem calculateBitrate_720 : calculateBitrate 720 = 2212 := by
  have h : ((1280 : ℤ).toNat : ℚ) = (1280 : ℚ) := by
    rw [show ((1280 : ℤ).toNat) = (1280 : ℕ) from rfl]
    norm_num
  norm_num [calculateBitrate, round_eq, h]
  rfl

/-- C8 counterexample: the 480p variant of the derived ladder has the odd
bitrate 1179 kbps, so its derived `max_bitrate` is the rounded-down
1768 = ⌊1.5 × 1179⌋ and not exactly 1.5 × bitrate (stated integrally:
2 × max_bitrate differs from 3 × bitrate). -/
theorem max_bitrate_rounds_down :
    VideoVariant.new "480p" 480 ∈ getVariantsForHeight 1080 ∧
    (VideoVariant.new "480p" 480).bitrate = 1179 ∧
    (VideoVariant.new "480p" 480).maxBitrate = 1768 ∧
    2 * (VideoVariant.new "480p" 480).maxBitrate ≠
      3 * (VideoVariant.new "480p" 480).bitrate := by
  have hb : (VideoVariant.new "480p" 480).bitrate = 1179 := calculateBitrate_480
  have hm : (VideoVariant.new "480p" 480).maxBitrate = 1768 := by
    show (VideoVariant.new "480p" 480).bitrate * 3 / 2 = 1768
    rw [hb]
  refine ⟨?_, hb, hm, ?_⟩
  · rw [ladder_1080_eq]
    exact List.mem_cons_self _ _
  · rw [hb, hm]
    decide

/-- C8 (amended): bitrate derivation is a pure, deterministic function of
height alone (the label never influences it), and every variant's derived
attributes satisfy buffer_size = 2 × bitrate, bandwidth_bps = bitrate × 1000
and max_bitrate = ⌊1.5 × bitrate⌋ (exactly 1.5 × bitrate when the bitrate is
even). -/
theorem c8_bitrate_attrs :
    (∀ (l1 l2 : String) (h : Nat),
      (VideoVariant.new l1 h).bitrate = (VideoVariant.new l2 h).bitrate) ∧
    (∀ v : VideoVariant,
      v.bufsize = 2 * v.bitrate ∧
      v.bandwidth = 1000 * v.bitrate ∧
      2 * v.maxBitrate ≤ 3 * v.bitrate ∧
      3 * v.bitrate < 2 * v.maxBitrate + 2 ∧
      (2 ∣ v.bitrate → 2 * v.maxBitrate = 3 * v.bitrate)) := by
  refine ⟨fun l1 l2 h => rfl, fun v => ⟨?_, ?_, ?_, ?_, ?_⟩⟩
  · show v.bitrate * 2 = 2 * v.bitrate
    omega
  · show v.bitrate * 1000 = 1000 * v.bitrate
    omega
  · show 2 * (v.bitrate * 3 / 2) ≤ 3 * v.bitrate
    omega
  · show 3 * v.bitrate < 2 * (v.bitrate * 3 / 2) + 2
    omega
  · rintro ⟨k, hk⟩
    show 2 * (v.bitrate * 3 / 2) = 3 * v.bitrate
    omega

/-- C8 witness: the amended attribute theorem applied at the 720p variant,
whose bitrate 2212 is even, so the max-bitrate relation is exact there. -/
theorem c8_bitrate_attrs_witness :
    2 * (VideoVariant.new "720p" 720).maxBitrate =
      3 * (VideoVariant.new "720p" 720).bitrate := by
  have hb : (VideoVariant.new "720p" 720).bitrate = 2212 := calculateBitrate_720
  exact (c8_bitrate_attrs.2 (VideoVariant.new "720p" 720)).2.2.2.2 ⟨1106, by omega⟩

/-! ## C3: the hardware fallback state machine -/

/-- C3: a variant task invokes the external encoder at most twice; a second
invocation happens exactly when the first failed on a non-CPU encoder with a
hardware-signature stderr, in which case the retry uses the CPU encoder, the
partial output is discarded, the CPU-fallback transition is recorded in the
progress detail text, and the task succeeds exactly when the retry does; any
other failure (including a CPU-configured first failure) is fatal with one
invocation; and any variant task error makes the whole `encode_to_hls` job
fail (no playlist is produced). -/
theorem c3_hardware_fallback :
    (∀ (v : VideoVariant) (e0 : EncoderType) (run : EncoderType → FfmpegOutcome),
      (variantTask v e0 run).invocations.length ≤ 2 ∧
      ((variantTask v e0 run).invocations.length = 2 ↔
        ((run e0).success = false ∧ e0 ≠ EncoderType.cpu ∧
          isHardwareEncoderError (run e0).stderr = true)) ∧
      ((variantTask v e0 run).invocations.length = 2 →
        (variantTask v e0 run).invocations = [e0, EncoderType.cpu] ∧
        (variantTask v e0 run).discardedPartialOutput = true ∧
        (variantTask v e0 run).fallbackDetails = [fallbackDetail v] ∧
        ((variantTask v e0 run).result = .ok () ↔
          (run EncoderType.cpu).success = true)) ∧
      ((run e0).success = false →
        (e0 = EncoderType.cpu ∨ isHardwareEncoderError (run e0).stderr = false) →
        (variantTask v e0 run).result = .error (encodeFailMsg v) ∧
        (variantTask v e0 run).invocations = [e0])) ∧
    (∀ (H : Nat) (enc : String) (audio : List AudioStreamInfo)
        (oracles : JobOracles) (i : Nat)
        (hi : i < (getVariantsForHeight H).length) (e : String),
      (variantTask ((getVariantsForHeight H).get ⟨i, hi⟩)
          (EncoderType.fromString enc) (oracles.variantRun i)).result =
        .error e →
      ∀ pl, encodeToHls H enc audio oracles ≠ .ok pl) := by
  constructor
  · intro v e0 run
    cases h1 : (run e0).success
    · by_cases h2 : e0 ≠ EncoderType.cpu ∧ isHardwareEncoderError (run e0).stderr
      · cases h3 : (run EncoderType.cpu).success
        · simp [variantTask, h1, h2, h3]
        · simp [variantTask, h1, h2, h3]
      · simp only [variantTask, h1, Bool.false_eq_true, if_false, h2]
        refine ⟨by simp, by simp, fun hlen => absurd hlen (by simp),
          fun _ _ => ⟨trivial, trivial⟩⟩
    · simp [variantTask, h1]
  · intro H enc audio oracles i hi e hv pl hok
    rw [encodeToHls_eq_ok_iff] at hok
    obtain ⟨-, hnone, -⟩ := hok
    have hmem := variantResult_mem_jobResults H enc audio oracles i hi
    rw [hv] at hmem
    obtain ⟨a, ha⟩ := (firstErr_eq_none_iff _).mp hnone _ hmem
    exact Except.noConfusion ha

/-! ## Counting lemmas for the master playlist -/

/-- A media entry is a media line. -/
theorem isMedia_mediaEntry (a : AudioStreamInfo) (i : Nat) :
    (mediaEntry a i).isMedia = true := rfl

/-- A media entry is not a stream-variant line. -/
theorem isStreamInf_mediaEntry (a : AudioStreamInfo) (i : Nat) :
    (mediaEntry a i).isStreamInf = false := rfl

/-- A header line is neither a media nor a stream-variant line. -/
theorem header_not_media_streamInf (t : String) :
    (PlaylistLine.header t).isMedia = false ∧
    (PlaylistLine.header t).isStreamInf = false := ⟨rfl, rfl⟩

/-- A blank line is neither a media nor a stream-variant line. -/
theorem blank_not_media_streamInf :
    PlaylistLine.blank.isMedia = false ∧
    PlaylistLine.blank.isStreamInf = false := ⟨rfl, rfl⟩

/-- A stream-variant line classifies as such and not as media. -/
theorem streamInf_classify (bw w h : Nat) (grp : Bool) :
    (PlaylistLine.streamInf bw w h grp).isMedia = false ∧
    (PlaylistLine.streamInf bw w h grp).isStreamInf = true := ⟨rfl, rfl⟩

/-- A variant-path line is neither a media nor a stream-variant line. -/
theorem variantPath_classify (l : String) :
    (PlaylistLine.variantPath l).isMedia = false ∧
    (PlaylistLine.variantPath l).isStreamInf = false := ⟨rfl, rfl⟩

/-- Mapped media entries are all media lines. -/
theorem filter_media_of_map (l : List (Nat × AudioStreamInfo)) :
    ((l.map (fun p => mediaEntry p.2 p.1)).filter
      (fun x => x.isMedia)).length = l.length := by
  induction l with
  | nil => rfl
  | cons hd tl ih => simp [isMedia_mediaEntry, ih]

/-- Mapped media entries contain no stream-variant lines. -/
theorem filter_streamInf_of_map (l : List (Nat × AudioStreamInfo)) :
    (l.map (fun p => mediaEntry p.2 p.1)).filter
      (fun x => x.isStreamInf) = [] := by
  induction l with
  | nil => rfl
  | cons hd tl ih => simp [isStreamInf_mediaEntry, ih]

/-- The per-variant lines contain no media lines. -/
theorem filter_media_of_variantLines (variants : List VideoVariant)
    (grp : Bool) :
    (variants.flatMap (fun v =>
      [PlaylistLine.streamInf v.bandwidth (v.height * 16 / 9) v.height grp,
       PlaylistLine.variantPath v.label])).filter (fun x => x.isMedia) =
      [] := by
  induction variants with
  | nil => rfl
  | cons hd tl ih =>
    simp [(streamInf_classify hd.bandwidth (hd.height * 16 / 9) hd.height grp).1,
      (variantPath_classify hd.label).1, ih]

/-- The per-variant lines contain exactly one stream-variant line per
variant. -/
theorem filter_streamInf_of_variantLines (variants : List VideoVariant)
    (grp : Bool) :
    ((variants.flatMap (fun v =>
      [PlaylistLine.streamInf v.bandwidth (v.height * 16 / 9) v.height grp,
       PlaylistLine.variantPath v.label])).filter
        (fun x => x.isStreamInf)).length = variants.length := by
  induction variants with
  | nil => rfl
  | cons hd tl ih =>
    simp [(streamInf_classify hd.bandwidth (hd.height * 16 / 9) hd.height grp).2,
      (variantPath_classify hd.label).2, ih]

/-- The built master playlist has exactly one media line per audio stream. -/
theorem count_media_buildMasterPlaylist (variants : List VideoVariant)
    (audio : List AudioStreamInfo) :
    ((buildMasterPlaylist variants audio).filter
      (fun x => x.isMedia)).length = audio.length := by
  unfold buildMasterPlaylist
  cases h : audio.isEmpty
  · simp [h, List.filter_append, (header_not_media_streamInf "#EXTM3U").1,
      (header_not_media_streamInf "#EXT-X-VERSION:3").1,
      blank_not_media_streamInf.1,
      filter_media_of_map, filter_media_of_variantLines]
  · have hnil : audio = [] := List.isEmpty_iff.mp h
    subst hnil
    simp [List.filter_append, (header_not_media_streamInf "#EXTM3U").1,
      (header_not_media_streamInf "#EXT-X-VERSION:3").1,
      blank_not_media_streamInf.1, filter_media_of_variantLines]

/-- The built master playlist has exactly one stream-variant line per
variant. -/
theorem count_streamInf_buildMasterPlaylist (variants : List VideoVariant)
    (audio : List AudioStreamInfo) :
    ((buildMasterPlaylist variants audio).filter
      (fun x => x.isStreamInf)).length = variants.length := by
  unfold buildMasterPlaylist
  cases h : audio.isEmpty
  · simp [h, List.filter_append, (header_not_media_streamInf "#EXTM3U").2,
      (header_not_media_streamInf "#EXT-X-VERSION:3").2,
      blank_not_media_streamInf.2,
      filter_streamInf_of_map, filter_streamInf_of_variantLines]
  · have hnil : audio = [] := List.isEmpty_iff.mp h
    subst hnil
    simp [List.filter_append, (header_not_media_streamInf "#EXTM3U").2,
      (header_not_media_streamInf "#EXT-X-VERSION:3").2,
      blank_not_media_streamInf.2, filter_streamInf_of_variantLines]

/-! ## C4: the master playlist invariant -/

/-- C4: whenever `encode_to_hls` produces a master playlist, the playlist has
exactly one `EXT-X-STREAM-INF` entry per ladder variant and exactly one
`EXT-X-MEDIA` entry per audio track, and every sibling task of the job
(each variant encode, each audio encode, the thumbnail and the sprite task)
returned success; conversely, when the ladder is non-empty and every joined
task succeeded, the job succeeds and writes exactly the built master
playlist. -/
theorem c4_master_playlist :
    (∀ (H : Nat) (enc : String) (audio : List AudioStreamInfo)
        (oracles : JobOracles) (pl : List PlaylistLine),
      encodeToHls H enc audio oracles = .ok pl →
        (pl.filter (fun x => x.isStreamInf)).length =
            (getVariantsForHeight H).length ∧
        (pl.filter (fun x => x.isMedia)).length = audio.length ∧
        (∀ (i : Nat) (hi : i < (getVariantsForHeight H).length),
          (variantTask ((getVariantsForHeight H).get ⟨i, hi⟩)
            (EncoderType.fromString enc) (oracles.variantRun i)).result =
              .ok ()) ∧
        (∀ (j : Nat), j < audio.length →
          audioTask j (oracles.audioRun j) = .ok ()) ∧
        thumbnailTask oracles.thumbRun = .ok () ∧
        spriteTask oracles.spriteRun = .ok ()) ∧
    (∀ (H : Nat) (enc : String) (audio : List AudioStreamInfo)
        (oracles : JobOracles),
      (getVariantsForHeight H).isEmpty = false →
      (∀ r ∈ jobResults H enc audio oracles, r = .ok ()) →
      encodeToHls H enc audio oracles =
        .ok (buildMasterPlaylist (getVariantsForHeight H) audio)) := by
  constructor
  · intro H enc audio oracles pl hok
    rw [encodeToHls_eq_ok_iff] at hok
    obtain ⟨hE, hnone, hpl⟩ := hok
    subst hpl
    have hall := (firstErr_eq_none_iff _).mp hnone
    refine ⟨count_streamInf_buildMasterPlaylist _ _,
      count_media_buildMasterPlaylist _ _, ?_, ?_, ?_, ?_⟩
    · intro i hi
      obtain ⟨a, ha⟩ :=
        hall _ (variantResult_mem_jobResults H enc audio oracles i hi)
      cases a
      exact ha
    · intro j hj
      obtain ⟨a, ha⟩ :=
        hall _ (audioResult_mem_jobResults H enc audio oracles j hj)
      cases a
      exact ha
    · obtain ⟨a, ha⟩ :=
        hall _ (thumb_sprite_mem_jobResults H enc audio oracles).1
      cases a
      exact ha
    · obtain ⟨a, ha⟩ :=
        hall _ (thumb_sprite_mem_jobResults H enc audio oracles).2
      cases a
      exact ha
  · intro H enc audio oracles hE hall
    rw [encodeToHls_eq_ok_iff]
    refine ⟨hE, ?_, rfl⟩
    exact (firstErr_eq_none_iff _).mpr (fun r hr => ⟨(), hall r hr⟩)

/-- C4 witness: a concrete all-success job at source height 1080 produces
exactly the built master playlist. -/
theorem c4_master_playlist_witness :
    encodeToHls 1080 "cpu" [] allOkOracles =
      .ok (buildMasterPlaylist (getVariantsForHeight 1080) []) := by
  refine c4_master_playlist.2 1080 "cpu" [] allOkOracles (by decide) ?_
  intro r hr
  rw [show jobResults 1080 "cpu" [] allOkOracles =
    [.ok (), .ok (), .ok (), .ok (), .ok ()] from rfl] at hr
  simp only [List.mem_cons, List.not_mem_nil, or_false] at hr
  rcases hr with h | h | h | h | h <;> exact h

/-! ## C10: thumbnail and sprite failures are non-fatal -/

/-- C10: a thumbnail or sprite subprocess that launches but exits non-zero
still yields task success (the failure is only logged), so sibling encodes
are unaffected and the job still writes the master playlist and completes;
only a launch failure makes the task, and hence the job, fail. -/
theorem c10_thumbnail_sprite_nonfatal :
    (∀ o : FfmpegOutcome,
      thumbnailTask (some o) = .ok () ∧ spriteTask (some o) = .ok ()) ∧
    thumbnailTask none = .error "failed to generate thumbnail" ∧
    spriteTask none = .error "failed to generate thumbnail sprite" ∧
    (∀ (H : Nat) (enc : String) (audio : List AudioStreamInfo)
        (oracles : JobOracles),
      (getVariantsForHeight H).isEmpty = false →
      (∃ oT, oracles.thumbRun = some oT ∧ oT.success = false) →
      (∃ oS, oracles.spriteRun = some oS ∧ oS.success = false) →
      (∀ r ∈ variantResults H enc oracles, r = .ok ()) →
      (∀ r ∈ audioResults audio oracles, r = .ok ()) →
      encodeToHls H enc audio oracles =
        .ok (buildMasterPlaylist (getVariantsForHeight H) audio)) ∧
    (∀ (H : Nat) (enc : String) (audio : List AudioStreamInfo)
        (oracles : JobOracles),
      oracles.thumbRun = none →
      ∀ pl, encodeToHls H enc audio oracles ≠ .ok pl) := by
  refine ⟨fun o => ⟨rfl, rfl⟩, rfl, rfl, ?_, ?_⟩
  · intro H enc audio oracles hE hT hS hv ha
    rw [encodeToHls_eq_ok_iff]
    refine ⟨hE, ?_, rfl⟩
    refine (firstErr_eq_none_iff _).mpr ?_
    intro r hr
    unfold jobResults at hr
    rcases List.mem_append.mp hr with h | h
    · rcases List.mem_append.mp h with h1 | h1
      · exact ⟨(), hv r h1⟩
      · exact ⟨(), ha r h1⟩
    · simp only [List.mem_cons, List.not_mem_nil, or_false] at h
      rcases h with h | h
      · obtain ⟨oT, hoT, -⟩ := hT
        refine ⟨(), ?_⟩
        rw [h, hoT]
        rfl
      · obtain ⟨oS, hoS, -⟩ := hS
        refine ⟨(), ?_⟩
        rw [h, hoS]
        rfl
  · intro H enc audio oracles hthumb pl hok
    rw [encodeToHls_eq_ok_iff] at hok
    obtain ⟨-, hnone, -⟩ := hok
    have hmem := (thumb_sprite_mem_jobResults H enc audio oracles).1
    rw [hthumb] at hmem
    obtain ⟨a, ha⟩ := (firstErr_eq_none_iff _).mp hnone _ hmem
    exact Except.noConfusion ha

/-- C10 witness: a concrete job whose thumbnail and sprite subprocesses exit
non-zero still completes and writes the master playlist. -/
theorem c10_thumbnail_sprite_nonfatal_witness :
    encodeToHls 1080 "cpu" [] thumbExitFailOracles =
      .ok (buildMasterPlaylist (getVariantsForHeight 1080) []) := by
  refine c10_thumbnail_sprite_nonfatal.2.2.2.1 1080 "cpu" [] thumbExitFailOracles
    (by decide) ⟨_, rfl, rfl⟩ ⟨_, rfl, rfl⟩ ?_ ?_
  · intro r hr
    rw [show variantResults 1080 "cpu" thumbExitFailOracles =
      [.ok (), .ok (), .ok ()] from rfl] at hr
    simp only [List.mem_cons, List.not_mem_nil, or_false] at hr
    rcases hr with h | h | h <;> exact h
  · intro r hr
    rw [show audioResults [] thumbExitFailOracles = [] from rfl] at hr
    exact absurd hr (List.not_mem_nil r)

/-! ## Shared lemmas about the session map -/

/-- A removed upload id is no longer found. -/
theorem lookupUpload_removeUpload (m : UploadsMap) (id : String) :
    lookupUpload (removeUpload m id) id = none := by
  unfold lookupUpload removeUpload
  rw [List.find?_eq_none.mpr]
  · rfl
  · intro p hp
    have h := List.of_mem_filter hp
    simpa using h

/-- A freshly inserted upload id is found with its session. -/
theorem lookupUpload_insertUpload (m : UploadsMap) (id : String)
    (u : ChunkedUpload) : lookupUpload (insertUpload m id u) id = some u := by
  unfold lookupUpload insertUpload
  rw [List.find?_cons_of_pos]
  · rfl
  · simp

/-- Reading all chunk files succeeds and concatenates them in index order
when every chunk file is present. -/
theorem readChunksInOrder_all_present (file : Nat → Option (List Nat)) :
    ∀ n : Nat, (∀ i, i < n → (file i).isSome) →
      readChunksInOrder file n =
        some (((List.range n).map (fun i => (file i).getD [])).flatten) := by
  intro n
  induction n with
  | zero => intro _; rfl
  | succ n ih =>
    intro h
    rw [readChunksInOrder,
      ih (fun i hi => h i (Nat.lt_trans hi (Nat.lt_succ_self n)))]
    obtain ⟨c, hc⟩ := Option.isSome_iff_exists.mp (h n (Nat.lt_succ_self n))
    rw [hc]
    simp [List.range_succ, hc]

/-! ## C2: finalize of a chunked upload -/

/-- C2: for a known session with at least one chunk, finalize fails with the
incomplete-upload error whenever some bitmap bit is unset, and when every
bit is set (and the chunk files exist) it succeeds, returns the chunk files
concatenated in index order, removes the session from the map, and removes
the session temp directory. -/
theorem c2_finalize_chunked_upload :
    ∀ (uploads : UploadsMap) (chunkFile : String → Nat → Option (List Nat))
      (id : String) (u : ChunkedUpload),
      lookupUpload uploads id = some u →
      1 ≤ u.totalChunks →
      u.receivedChunks.length = u.totalChunks →
      ((¬ ∀ b ∈ u.receivedChunks, b = true) →
        (finalizeChunkedUpload uploads chunkFile id).outcome =
          .error (400, "Not all chunks have been received")) ∧
      ((∀ b ∈ u.receivedChunks, b = true) →
       (∀ i, i < u.totalChunks → (chunkFile u.tempDir i).isSome) →
        (finalizeChunkedUpload uploads chunkFile id).outcome =
          .ok (((List.range u.totalChunks).map
            (fun i => (chunkFile u.tempDir i).getD [])).flatten) ∧
        lookupUpload (finalizeChunkedUpload uploads chunkFile id).uploads id =
          none ∧
        (finalizeChunkedUpload uploads chunkFile id).tempDirRemoved = true) := by
  intro uploads chunkFile id u hlook h1 hlen
  constructor
  · intro hincomplete
    have hall : u.receivedChunks.all (fun r => r) = false := by
      rcases h : u.receivedChunks.all (fun r => r) with _ | _
      · rfl
      · exact absurd (fun b hb => List.all_eq_true.mp h b hb) hincomplete
    simp [finalizeChunkedUpload, hlook, hall]
  · intro hcomplete hfiles
    have hall : u.receivedChunks.all (fun r => r) = true :=
      List.all_eq_true.mpr (fun b hb => hcomplete b hb)
    have hread := readChunksInOrder_all_present (chunkFile u.tempDir)
      u.totalChunks hfiles
    refine ⟨?_, ?_, ?_⟩ <;>
      simp [finalizeChunkedUpload, hlook, hall, hread,
        lookupUpload_removeUpload]

/-- C2 witness: a concrete complete two-chunk session finalizes to the
in-order concatenation of its chunk files, with the session gone and its
temp directory removed. -/
theorem c2_finalize_chunked_upload_witness :
    (finalizeChunkedUpload
      [("u1", { fileName := "f.mp4", totalChunks := 2,
                receivedChunks := [true, true], tempDir := "td",
                lastActivity := 0 })]
      (fun _ i => some [i, 9]) "u1").outcome = .ok [0, 9, 1, 9] ∧
    lookupUpload (finalizeChunkedUpload
      [("u1", { fileName := "f.mp4", totalChunks := 2,
                receivedChunks := [true, true], tempDir := "td",
                lastActivity := 0 })]
      (fun _ i => some [i, 9]) "u1").uploads "u1" = none := by
  have h := (c2_finalize_chunked_upload
    [("u1", { fileName := "f.mp4", totalChunks := 2,
              receivedChunks := [true, true], tempDir := "td",
              lastActivity := 0 })]
    (fun _ i => some [i, 9]) "u1"
    { fileName := "f.mp4", totalChunks := 2,
      receivedChunks := [true, true], tempDir := "td", lastActivity := 0 }
    rfl (by decide) (by decide)).2
    (by decide) (fun i _ => rfl)
  exact ⟨h.1, h.2.1⟩

/-! ## C7: what a failed finalize leaves behind -/

/-- C7 counterexample: a finalize that fails with the incomplete-upload
error has already removed the session from the map, so the session is not
left in place for a retry. -/
theorem finalize_incomplete_removes_session :
    (finalizeChunkedUpload
      [("u1", { fileName := "f.mp4", totalChunks := 3,
                receivedChunks := [true, false, true], tempDir := "td",
                lastActivity := 0 })]
      (fun _ _ => none) "u1").outcome =
        .error (400, "Not all chunks have been received") ∧
    lookupUpload (finalizeChunkedUpload
      [("u1", { fileName := "f.mp4", totalChunks := 3,
                receivedChunks := [true, false, true], tempDir := "td",
                lastActivity := 0 })]
      (fun _ _ => none) "u1").uploads "u1" = none := ⟨rfl, rfl⟩

/-- C7 (amended): validation errors at finalize are surfaced immediately: an
unknown upload id yields the not-found error with the session map unchanged;
an incomplete upload yields the incomplete-upload error without touching the
temp directory or chunk files, but the session has already been removed from
the map by then, so a retry requires re-uploading (it is not left in
place). -/
theorem c7_finalize_validation_errors :
    (∀ (uploads : UploadsMap) (chunkFile : String → Nat → Option (List Nat))
        (id : String),
      lookupUpload uploads id = none →
      (finalizeChunkedUpload uploads chunkFile id).outcome =
        .error (404, "Upload ID not found or already finalized") ∧
      (finalizeChunkedUpload uploads chunkFile id).uploads = uploads ∧
      (finalizeChunkedUpload uploads chunkFile id).tempDirRemoved = false) ∧
    (∀ (uploads : UploadsMap) (chunkFile : String → Nat → Option (List Nat))
        (id : String) (u : ChunkedUpload),
      lookupUpload uploads id = some u →
      (¬ ∀ b ∈ u.receivedChunks, b = true) →
      (finalizeChunkedUpload uploads chunkFile id).outcome =
        .error (400, "Not all chunks have been received") ∧
      lookupUpload (finalizeChunkedUpload uploads chunkFile id).uploads id =
        none ∧
      (finalizeChunkedUpload uploads chunkFile id).tempDirRemoved = false) := by
  constructor
  · intro uploads chunkFile id hlook
    refine ⟨?_, ?_, ?_⟩ <;> simp [finalizeChunkedUpload, hlook]
  · intro uploads chunkFile id u hlook hincomplete
    have hall : u.receivedChunks.all (fun r => r) = false := by
      rcases h : u.receivedChunks.all (fun r => r) with _ | _
      · rfl
      · exact absurd (fun b hb => List.all_eq_true.mp h b hb) hincomplete
    refine ⟨?_, ?_, ?_⟩ <;>
      simp [finalizeChunkedUpload, hlook, hall, lookupUpload_removeUpload]

/-- C7 witness: the amended theorem applied to a concrete unknown upload
id. -/
theorem c7_finalize_validation_errors_witness :
    (finalizeChunkedUpload [] (fun _ _ => none) "missing").outcome =
      .error (404, "Upload ID not found or already finalized") :=
  (c7_finalize_validation_errors.1 [] (fun _ _ => none) "missing" rfl).1

/-! ## C6: the chunk-index bounds check that is not there -/

/-- C6 (code bug): the chunk-store handler never returns any validation
error for the chunk index; when the index is at or beyond the session's
total chunk count it panics on the out-of-bounds bitmap assignment instead
(after having already written the chunk file to the temp directory). -/
theorem c6_chunk_index_out_of_range_panics :
    (∀ (uploads : UploadsMap) (id fileName : String)
        (chunkIndex totalChunks now : Nat) (s : Nat) (m : String),
      (uploadChunk uploads id fileName chunkIndex totalChunks now).outcome ≠
        .err s m) ∧
    (∀ (uploads : UploadsMap) (id fileName : String)
        (chunkIndex totalChunks now : Nat),
      (∀ u, lookupUpload uploads id = some u →
        u.receivedChunks.length = u.totalChunks ∧
        u.totalChunks ≤ chunkIndex) →
      (lookupUpload uploads id = none → totalChunks ≤ chunkIndex) →
      (uploadChunk uploads id fileName chunkIndex totalChunks now).outcome =
        .crashed "index out of bounds" ∧
      (uploadChunk uploads id fileName chunkIndex totalChunks
        now).writtenChunkFile ≠ none) := by
  constructor
  · intro uploads id fileName chunkIndex totalChunks now s m
    cases hl : lookupUpload uploads id with
    | none =>
      simp only [uploadChunk, hl, lookupUpload_insertUpload]
      by_cases hc : chunkIndex < totalChunks
      · simp [hc]
      · simp [hc]
    | some u =>
      simp only [uploadChunk, hl]
      by_cases hc : chunkIndex < u.receivedChunks.length
      · simp [hc]
      · simp [hc]
  · intro uploads id fileName chunkIndex totalChunks now hsome hnone
    cases hl : lookupUpload uploads id with
    | none =>
      have hidx := hnone hl
      simp only [uploadChunk, hl, lookupUpload_insertUpload]
      have hcond : ¬ (chunkIndex < totalChunks) := by omega
      simp [hcond]
    | some u =>
      obtain ⟨hlen, hidx⟩ := hsome u hl
      simp only [uploadChunk, hl]
      have hcond : ¬ (chunkIndex < u.receivedChunks.length) := by omega
      simp [hcond]

/-- C6 witness: the first chunk request of a fresh three-chunk session with
chunk index 3 panics out of bounds after writing the chunk file. -/
theorem c6_chunk_index_out_of_range_panics_witness :
    (uploadChunk [] "u1" "f.mp4" 3 3 0).outcome =
      .crashed "index out of bounds" :=
  (c6_chunk_index_out_of_range_panics.2 [] "u1" "f.mp4" 3 3 0
    (fun u hu => absurd hu (by simp [lookupUpload])) (fun _ => Nat.le_refl 3)).1

/-! ## C5: percentage versus status -/

/-- C5 counterexample: the assembling-file progress record written by
`finalize_chunked_upload` (src/handlers/upload.rs:677-689) reports
percentage 100 with the non-terminal status `processing`, so percentage 100
does not imply status Completed. -/
theorem progress_100_not_completed :
    Emitted ⟨"Assembling file", 3, 3, 100,
      some "Assembling chunks into final file...", "processing",
      none, none, some "v", 0⟩ ∧
    (⟨"Assembling file", 3, 3, 100,
      some "Assembling chunks into final file...", "processing",
      none, none, some "v", 0⟩ : ProgressUpdate).percentage = 100 ∧
    (⟨"Assembling file", 3, 3, 100,
      some "Assembling chunks into final file...", "processing",
      none, none, some "v", 0⟩ : ProgressUpdate).status ≠ "completed" :=
  ⟨Emitted.assembling 3 "v", rfl, by decide⟩

/-- C5 (amended): over every progress record the pipeline ever writes, a
record with status `completed` always has percentage 100 and a record with
status `failed` always has percentage 0 (never 100); but the converse of
the first part fails: percentage 100 also occurs with the non-terminal
status `processing` (the assembling-file update), so percentage 100 does
not imply Completed. -/
theorem c5_percentage_status :
    ∀ u : ProgressUpdate, Emitted u →
      (u.status = "completed" → u.percentage = 100) ∧
      (u.status = "failed" → u.percentage = 0) := by
  intro u hu
  cases hu <;> refine ⟨fun h => ?_, fun h => ?_⟩ <;>
    first
      | rfl
      | simp at h

/-- C5 witness: the amended theorem applied at a concrete completion record
and at a concrete failure record. -/
theorem c5_percentage_status_witness :
    (⟨"Completed", 1, 1, 100, some "Upload and processing complete",
      "completed", some ⟨"/player/x", "u1"⟩, none, some "v", 0⟩ :
        ProgressUpdate).percentage = 100 ∧
    (⟨"Failed", 0, 1, 0, some "Processing failed: boom", "failed", none,
      some "boom", some "v", 0⟩ : ProgressUpdate).percentage = 0 :=
  ⟨(c5_percentage_status _ (Emitted.completed ⟨"/player/x", "u1"⟩ "v")).1 rfl,
   (c5_percentage_status _ (Emitted.failed "boom" "v")).2 rfl⟩

/-! ## C9: the storage uploader -/

/-- Character counts add over string concatenation. -/
theorem countChar_append (a b : String) (c : Char) :
    countChar (a ++ b) c = countChar a c + countChar b c := by
  unfold countChar
  rw [show (a ++ b).toList = a.toList ++ b.toList from rfl,
    List.filter_append, List.length_append]

/-- The join surfaces the error of the first failing entry. -/
theorem firstErr_eq_some_get {α : Type} :
    ∀ (l : List (Except String α)) (i : Nat) (hi : i < l.length) (e : String),
      l.get ⟨i, hi⟩ = .error e →
      (∀ j (hj : j < i), ∃ a, l.get ⟨j, Nat.lt_trans hj hi⟩ = .ok a) →
      firstErr l = some e := by
  intro l
  induction l with
  | nil => intro i hi; exact absurd hi (Nat.not_lt_zero i)
  | cons hd tl ih =>
    intro i hi e hget hbefore
    cases i with
    | zero =>
      rw [show hd = Except.error e from hget]
      rfl
    | succ i' =>
      obtain ⟨a, ha⟩ := hbefore 0 (Nat.succ_pos i')
      rw [show hd = Except.ok a from ha]
      show firstErr tl = some e
      exact ih i' (Nat.lt_of_succ_lt_succ hi) e hget
        (fun j hj => hbefore (j + 1) (Nat.succ_lt_succ hj))

/-- A walk whose every entry yields no master key yields no master key. -/
theorem collectEntries_none_of_forall (pre : String) :
    ∀ entries : List FsEntry,
      (∀ e ∈ entries, (collectEntry pre e).2 = none) →
      (collectEntries pre entries).2 = none := by
  intro entries
  induction entries with
  | nil => intro _; rfl
  | cons hd tl ih =>
    intro h
    show ((collectEntries pre tl).2 <|> (collectEntry pre hd).2) = none
    rw [h hd (List.mem_cons_self hd tl),
      ih (fun e he => h e (List.mem_cons_of_mem hd he))]
    rfl

/-- Below the top level (a prefix with two or more slashes), the walk never
records a master-playlist key. -/
theorem collectEntry_master_none_deep :
    ∀ e : FsEntry, SlashFree e → ∀ pre : String, 2 ≤ countChar pre '/' →
      (collectEntry pre e).2 = none := by
  intro e he
  induction he with
  | file name h =>
    intro pre hpre
    show (if name = "index.m3u8" ∧ countChar pre '/' = 1
      then some (pre ++ name) else none) = none
    rw [if_neg]
    rintro ⟨-, h1⟩
    omega
  | dir name entries h hs ih =>
    intro pre hpre
    show (collectEntries (pre ++ name ++ "/") entries).2 = none
    have hpre' : 2 ≤ countChar (pre ++ name ++ "/") '/' := by
      rw [countChar_append, countChar_append, h,
        show countChar "/" '/' = 1 from rfl]
      omega
    exact collectEntries_none_of_forall _ entries
      (fun e' he' => ih e' he' _ hpre')

/-- At the top level, the recorded master key is `pre ++ "index.m3u8"` when a
root file of that name exists, and nothing otherwise. -/
theorem collectEntries_master_cases (pre : String)
    (hpre : countChar pre '/' = 1) :
    ∀ entries : List FsEntry, (∀ e ∈ entries, SlashFree e) →
      ((collectEntries pre entries).2 = some (pre ++ "index.m3u8") ∧
        FsEntry.file "index.m3u8" ∈ entries) ∨
      ((collectEntries pre entries).2 = none ∧
        FsEntry.file "index.m3u8" ∉ entries) := by
  intro entries
  induction entries with
  | nil =>
    intro _
    right
    exact ⟨rfl, List.not_mem_nil _⟩
  | cons hd tl ih =>
    intro hsf
    have htl := ih (fun e he => hsf e (List.mem_cons_of_mem hd he))
    have hhd : ((collectEntry pre hd).2 = some (pre ++ "index.m3u8") ∧
        hd = FsEntry.file "index.m3u8") ∨
        ((collectEntry pre hd).2 = none ∧
        hd ≠ FsEntry.file "index.m3u8") := by
      cases hd with
      | file name =>
        by_cases hn : name = "index.m3u8"
        · subst hn
          left
          refine ⟨?_, rfl⟩
          show (if ("index.m3u8" : String) = "index.m3u8" ∧
            countChar pre '/' = 1
            then some (pre ++ "index.m3u8") else none) = _
          rw [if_pos ⟨rfl, hpre⟩]
        · right
          refine ⟨?_, fun hc => hn (by injection hc)⟩
          show (if name = "index.m3u8" ∧ countChar pre '/' = 1
            then some (pre ++ name) else none) = none
          rw [if_neg (fun hc => hn hc.1)]
      | dir name es =>
        right
        refine ⟨?_, fun hc => FsEntry.noConfusion hc⟩
        have hsfd := hsf _ (List.mem_cons_self _ tl)
        cases hsfd with
        | dir _ _ h hs =>
          show (collectEntries (pre ++ name ++ "/") es).2 = none
          have hpre' : 2 ≤ countChar (pre ++ name ++ "/") '/' := by
            rw [countChar_append, countChar_append, h,
              show countChar "/" '/' = 1 from rfl]
            omega
          exact collectEntries_none_of_forall _ es
            (fun e' he' => collectEntry_master_none_deep e' (hs e' he') _ hpre')
    show (((collectEntries pre tl).2 <|> (collectEntry pre hd).2) = _ ∧ _) ∨
      (((collectEntries pre tl).2 <|> (collectEntry pre hd).2) = _ ∧ _)
    rcases htl with ⟨h2, hmem⟩ | ⟨h2, hmem⟩
    · left
      rw [h2]
      exact ⟨rfl, List.mem_cons_of_mem hd hmem⟩
    · rcases hhd with ⟨h1, heq⟩ | ⟨h1, hne⟩
      · left
        rw [h2, h1]
        refine ⟨rfl, ?_⟩
        rw [heq]
        exact List.mem_cons_self _ _
      · right
        rw [h2, h1]
        refine ⟨rfl, fun hmem' => ?_⟩
        rcases List.mem_cons.mp hmem' with h | h
        · exact hne h.symm
        · exact hmem h

/-- C9: the storage uploader attempts every collected file regardless of
other files' failures (the settled result at each position is that file's
own upload outcome); when every upload succeeds it returns the tracked
top-level master-playlist key, and fails with the no-master-playlist error
when none was recorded; when some upload fails, the error surfaced after
all settle is the first failing file's error; and for a slash-free tree
under a top-level prefix the tracked key is `pre ++ "index.m3u8"` exactly
when a root-level file of that name exists. -/
theorem c9_storage_uploader :
    (∀ (hlsDir : List FsEntry) (pre : String)
        (up : String → Except String Unit),
      (uploadAttempts hlsDir pre up).length =
        (collectEntries pre hlsDir).1.length ∧
      ∀ i : Nat, (uploadAttempts hlsDir pre up).get? i =
        ((collectEntries pre hlsDir).1.get? i).map
          (fun k => (up k).map (fun _ => k))) ∧
    (∀ (hlsDir : List FsEntry) (pre : String)
        (up : String → Except String Unit),
      (∀ k ∈ (collectEntries pre hlsDir).1, up k = .ok ()) →
      (∀ m, (collectEntries pre hlsDir).2 = some m →
        uploadHlsToR2 hlsDir pre up = .ok m) ∧
      ((collectEntries pre hlsDir).2 = none →
        uploadHlsToR2 hlsDir pre up =
          .error "no master playlist (index.m3u8) generated")) ∧
    (∀ (hlsDir : List FsEntry) (pre : String)
        (up : String → Except String Unit) (i : Nat)
        (hi : i < (collectEntries pre hlsDir).1.length) (e : String),
      up ((collectEntries pre hlsDir).1.get ⟨i, hi⟩) = .error e →
      (∀ j (hj : j < i),
        up ((collectEntries pre hlsDir).1.get ⟨j, Nat.lt_trans hj hi⟩) =
          .ok ()) →
      uploadHlsToR2 hlsDir pre up = .error e) ∧
    (∀ (hlsDir : List FsEntry) (pre : String),
      countChar pre '/' = 1 → (∀ e ∈ hlsDir, SlashFree e) →
      (FsEntry.file "index.m3u8" ∈ hlsDir →
        (collectEntries pre hlsDir).2 = some (pre ++ "index.m3u8")) ∧
      (FsEntry.file "index.m3u8" ∉ hlsDir →
        (collectEntries pre hlsDir).2 = none)) := by
  refine ⟨?_, ?_, ?_, ?_⟩
  · intro hlsDir pre up
    exact ⟨List.length_map _ _, fun i => List.get?_map _ _ i⟩
  · intro hlsDir pre up hok
    have hnone : firstErr (uploadAttempts hlsDir pre up) = none := by
      refine (firstErr_eq_none_iff _).mpr ?_
      intro r hr
      obtain ⟨k, hk, hrk⟩ := List.mem_map.mp hr
      refine ⟨k, ?_⟩
      rw [← hrk, hok k hk]
      rfl
    constructor
    · intro m hm
      unfold uploadHlsToR2
      rw [hnone, hm]
    · intro hm
      unfold uploadHlsToR2
      rw [hnone, hm]
  · intro hlsDir pre up i hi e hget hbefore
    have hlen : i < (uploadAttempts hlsDir pre up).length := by
      unfold uploadAttempts
      rw [List.length_map]
      exact hi
    have hgeti : (uploadAttempts hlsDir pre up).get ⟨i, hlen⟩ =
        Except.error e := by
      show ((collectEntries pre hlsDir).1.map
        (fun key => (up key).map (fun _ => key))).get ⟨i, by
          rw [List.length_map]; exact hi⟩ = Except.error e
      rw [List.get_map, hget]
      rfl
    have hsome : firstErr (uploadAttempts hlsDir pre up) = some e := by
      refine firstErr_eq_some_get _ i hlen e hgeti ?_
      intro j hj
      refine ⟨(collectEntries pre hlsDir).1.get ⟨j, Nat.lt_trans hj hi⟩, ?_⟩
      show ((collectEntries pre hlsDir).1.map
        (fun key => (up key).map (fun _ => key))).get ⟨j, by
          rw [List.length_map]; exact Nat.lt_trans hj hi⟩ = _
      rw [List.get_map, hbefore j hj]
      rfl
    unfold uploadHlsToR2
    rw [hsome]
  · intro hlsDir pre hpre hsf
    constructor
    · intro hmem
      rcases collectEntries_master_cases pre hpre hlsDir hsf with ⟨h, -⟩ | ⟨-, hno⟩
      · exact h
      · exact absurd hmem hno
    · intro hno
      rcases collectEntries_master_cases pre hpre hlsDir hsf with ⟨-, hmem⟩ | ⟨h, -⟩
      · exact absurd hmem hno
      · exact h

/-- C9 witness: a concrete two-level tree with a top-level master playlist,
all uploads succeeding, returns the master key. -/
theorem c9_storage_uploader_witness :
    uploadHlsToR2
      [FsEntry.file "index.m3u8",
       FsEntry.dir "480p" [FsEntry.file "index.m3u8",
                           FsEntry.file "segment_000.ts"]]
      "job1/" (fun _ => .ok ()) = .ok "job1/index.m3u8" := by
  refine ((c9_storage_uploader.2.1
    [FsEntry.file "index.m3u8",
     FsEntry.dir "480p" [FsEntry.file "index.m3u8",
                         FsEntry.file "segment_000.ts"]]
    "job1/" (fun _ => .ok ()) (fun k _ => rfl)).1 "job1/index.m3u8" ?_)
  rfl

/-- C3 witness: a concrete job where the first variant's hardware invocation
fails with a recognized hardware signature, the CPU retry succeeds, and the
recorded behavior matches the fallback state machine. -/
theorem c3_hardware_fallback_witness :
    (variantTask (VideoVariant.new "480p" 480) EncoderType.nvenc
        (fun e => if e = EncoderType.nvenc
          then { success := false, stderr := "Cannot open the hw device" }
          else { success := true, stderr := "" })).invocations =
      [EncoderType.nvenc, EncoderType.cpu] := by
  have h := (c3_hardware_fallback.1 (VideoVariant.new "480p" 480)
    EncoderType.nvenc
    (fun e => if e = EncoderType.nvenc
      then { success := false, stderr := "Cannot open the hw device" }
      else { success := true, stderr := "" })).2.2.1
  exact (h (by decide)).1

end R2V
